import Mathlib

/-!
Shallow embedding of `src/static/app.js`: a single-page UI whose state is an
immutable snapshot of capabilities (a mapping from capability name to a
capability record), mutated by `registerConsultant` / `unregisterConsultant`
after HTTP calls, and rendered by a `UI` module.

JavaScript objects are modelled as association lists preserving insertion
order (the iteration order of string-keyed JS objects); the object spread
`{...obj, [k]: v}` is modelled by `setKey`, which replaces the entry in place
when `k` is already a key and appends it otherwise.  Network outcomes are an
explicit `HttpResponse` parameter; a `try`-block body that can raise is
modelled as a function into `Except String _`, and the surrounding
`try`/`catch` as a total function that maps the `.error` case to the
source's catch handler.
-/

namespace ConsultantApp

/-- A capability record as consumed from the backend JSON.  Optional fields
model JS properties that may be absent (`undefined`). -/
structure Capability where
  description : String
  practice_area : String
  industry_verticals : Option (List String)
  capacity : Option Nat
  consultants : Option (List String)
deriving DecidableEq

/-- The capabilities snapshot: a string-keyed JS object, modelled as an
association list in key insertion order. -/
abbrev Snapshot := List (String × Capability)

/-- JS property read `obj[key]`: the value at the first matching key, or
`none` for `undefined`. -/
def lookupCap : Snapshot → String → Option Capability
  | [], _ => none
  | p :: rest, key => if p.1 = key then some p.2 else lookupCap rest key

/-- Whether `key` is a key of the object. -/
def hasKey (s : Snapshot) (key : String) : Bool :=
  s.any (fun p => p.1 == key)

/-- The object spread `{...s, [key]: v}`: an existing key keeps its position
with the new value; a new key is appended at the end. -/
def setKey (s : Snapshot) (key : String) (v : Capability) : Snapshot :=
  if hasKey s key then s.map (fun p => if p.1 = key then (key, v) else p)
  else s ++ [(key, v)]

/-- Outcome of one HTTP exchange as seen by the client code: a 2xx response
whose JSON body parsed to `{message}`, a non-2xx response whose JSON body
parsed to `{detail?}`, or a network/JSON-parse failure (fetch rejected or
`response.json()` threw). -/
inductive HttpResponse where
  | ok (message : String)
  | err (detail : Option String)
  | netFail
deriving DecidableEq

/-- Observable outcome of `registerConsultant`: the stored snapshot after the
call, the returned boolean, the `(text, kind)` pair passed to
`UI.showMessage` (if any), whether `render()` ran, and whether
`console.error` logged. -/
structure RegOutcome where
  snapshot : Snapshot
  returned : Bool
  shown : Option (String × String)
  rendered : Bool
  logged : Bool
deriving DecidableEq

/-- Observable outcome of `unregisterConsultant` (no return value). -/
structure UnregOutcome where
  snapshot : Snapshot
  shown : Option (String × String)
  rendered : Bool
  logged : Bool
deriving DecidableEq

/-- Observable outcome of `fetchCapabilities`: the stored snapshot after the
call, whether `render()` ran, whether `console.error` logged, and the text
passed to `UI.showError` (if any). -/
structure FetchOutcome where
  snapshot : Snapshot
  rendered : Bool
  logged : Bool
  errorShown : Option String
deriving DecidableEq

/-- Outcome of one fetch of `/capabilities`: parsed JSON data, or a network
error / non-JSON body. -/
inductive FetchResponse where
  | ok (data : Snapshot)
  | fail
deriving DecidableEq

namespace AppState

/-- The `try`-block body of `AppState.registerConsultant`: `.error` models an
exception escaping the block (network/parse failure, or the `TypeError`
raised by reading `.consultants` of `undefined` when the capability is
absent from the snapshot, or by spreading an `undefined` consultants
field). -/
def registerConsultantTry (st : Snapshot) (cap email : String) (r : HttpResponse) :
    Except String RegOutcome :=
  match r with
  | HttpResponse.netFail => Except.error "fetch rejected or response body was not JSON"
  | HttpResponse.err d =>
      Except.ok ⟨st, false, some (d.getD "An error occurred", "error"), false, false⟩
  | HttpResponse.ok m =>
      match lookupCap st cap with
      | none => Except.error "TypeError: cannot read consultants of undefined"
      | some c =>
          match c.consultants with
          | none => Except.error "TypeError: cannot spread undefined into an array"
          | some l =>
              Except.ok ⟨setKey st cap { c with consultants := some (l ++ [email]) },
                true, some (m, "success"), true, false⟩

/-- `AppState.registerConsultant`: the `try` body with the `catch` handler
applied, hence total (no exception reaches the caller). -/
def registerConsultant (st : Snapshot) (cap email : String) (r : HttpResponse) : RegOutcome :=
  match registerConsultantTry st cap email r with
  | Except.ok o => o
  | Except.error _ =>
      ⟨st, false, some ("Failed to register. Please try again.", "error"), false, true⟩

/-- The `try`-block body of `AppState.unregisterConsultant`; the success path
filters the consultants by exact string inequality with `email`. -/
def unregisterConsultantTry (st : Snapshot) (cap email : String) (r : HttpResponse) :
    Except String UnregOutcome :=
  match r with
  | HttpResponse.netFail => Except.error "fetch rejected or response body was not JSON"
  | HttpResponse.err d =>
      Except.ok ⟨st, some (d.getD "An error occurred", "error"), false, false⟩
  | HttpResponse.ok m =>
      match lookupCap st cap with
      | none => Except.error "TypeError: cannot read consultants of undefined"
      | some c =>
          match c.consultants with
          | none => Except.error "TypeError: cannot read filter of undefined"
          | some l =>
              Except.ok ⟨setKey st cap { c with consultants := some (l.filter (fun x => x != email)) },
                some (m, "success"), true, false⟩

/-- `AppState.unregisterConsultant`: the `try` body with the `catch` handler
applied, hence total. -/
def unregisterConsultant (st : Snapshot) (cap email : String) (r : HttpResponse) : UnregOutcome :=
  match unregisterConsultantTry st cap email r with
  | Except.ok o => o
  | Except.error _ =>
      ⟨st, some ("Failed to unregister. Please try again.", "error"), false, true⟩

/-- The `try`-block body of `AppState.fetchCapabilities`: on success the
snapshot is replaced wholesale by the parsed data (`{...data}` is a shallow
copy, i.e. the same association list); `.error` models a rejected fetch or a
JSON parse failure. -/
def fetchCapabilitiesTry (_st : Snapshot) (r : FetchResponse) : Except String FetchOutcome :=
  match r with
  | FetchResponse.ok d => Except.ok ⟨d, true, false, none⟩
  | FetchResponse.fail => Except.error "fetch rejected or response body was not JSON"

/-- `AppState.fetchCapabilities`: the `try` body with the `catch` handler
applied, hence total; on failure it logs and shows the generic error. -/
def fetchCapabilities (st : Snapshot) (r : FetchResponse) : FetchOutcome :=
  match fetchCapabilitiesTry st r with
  | Except.ok o => o
  | Except.error _ =>
      ⟨st, false, true, some "Failed to load capabilities. Please try again later."⟩

/-- The initial value of `AppState.capabilities`: the empty object. -/
def initialCapabilities : Snapshot := []

/-- `AppState.init`: awaits one `fetchCapabilities` starting from the initial
empty mapping. -/
def init (r : FetchResponse) : FetchOutcome :=
  fetchCapabilities initialCapabilities r

end AppState

/-- One `<option>` element of the capability selector. -/
structure SelectOption where
  value : String
  label : String
deriving DecidableEq

/-- A delete button inside a capability card, with its two data attributes. -/
structure DeleteButton where
  data_capability : String
  data_email : String
deriving DecidableEq

/-- One `<li>` of the consultants list: the email span and its delete button. -/
structure ConsultantItem where
  email : String
  button : DeleteButton
deriving DecidableEq

/-- The consultants block of a card: either the bulleted list of consultant
items or the placeholder paragraph shown when the list is empty or absent. -/
inductive ConsultantsSection where
  | list (items : List ConsultantItem)
  | placeholder (text : String)
deriving DecidableEq

/-- The removal controls a consultants block renders: one per list item,
none for the placeholder. -/
def ConsultantsSection.removalButtons : ConsultantsSection → List DeleteButton
  | ConsultantsSection.list items => items.map (fun it => it.button)
  | ConsultantsSection.placeholder _ => []

/-- The rendered content of one capability card. -/
structure CapabilityCard where
  name : String
  description : String
  practice_area : String
  industry_verticals_text : String
  capacity_shown : Nat
  team_count : Nat
  consultants : ConsultantsSection
deriving DecidableEq

namespace UI

/-- `UI.createCapabilityCard`: builds one card from a name and a capability
record, following the source's truthiness guards (`details.capacity || 0`,
`details.consultants ? ... : 0`, and the list shown only when `consultants`
is present with positive length). -/
def createCapabilityCard (name : String) (details : Capability) : CapabilityCard :=
  { name := name
    description := details.description
    practice_area := details.practice_area
    industry_verticals_text :=
      match details.industry_verticals with
      | some vs => String.intercalate ", " vs
      | none => "Not specified"
    capacity_shown := details.capacity.getD 0
    team_count := (details.consultants.getD []).length
    consultants :=
      match details.consultants with
      | some l =>
          if l.length > 0 then
            ConsultantsSection.list (l.map (fun e => ⟨e, ⟨name, e⟩⟩))
          else ConsultantsSection.placeholder "No consultants registered yet"
      | none => ConsultantsSection.placeholder "No consultants registered yet" }

/-- The content `UI.renderCapabilities` writes into the list container: one
card per snapshot entry, in iteration order. -/
def renderCapabilityCards (s : Snapshot) : List CapabilityCard :=
  s.map (fun p => createCapabilityCard p.1 p.2)

/-- The leading default option the selector is reset to. -/
def placeholderOption : SelectOption := ⟨"", "-- Select a capability --"⟩

/-- The options `UI.renderCapabilitySelect` leaves in the selector: the
default option followed by one option per snapshot key, in iteration order,
with the capability name as both value and label. -/
def renderCapabilitySelectOptions (s : Snapshot) : List SelectOption :=
  placeholderOption :: s.map (fun p => ⟨p.1, p.1⟩)

/-- Presence of each of the four DOM anchor points on the host page. -/
structure Dom where
  capabilitiesListPresent : Bool
  capabilitySelectPresent : Bool
  registerFormPresent : Bool
  messageDivPresent : Bool
deriving DecidableEq

/-- `UI.elements` after `init`: `true` means a non-null handle. -/
structure Elements where
  capabilitiesList : Bool
  capabilitySelect : Bool
  registerForm : Bool
  messageDiv : Bool
deriving DecidableEq

/-- `UI.init`: stores the four `getElementById` results (null when absent),
then unconditionally calls `addEventListener` on the register-form handle —
which raises a `TypeError` when that anchor is absent. -/
def init (dom : Dom) : Except String Elements :=
  let els : Elements := ⟨dom.capabilitiesListPresent, dom.capabilitySelectPresent,
    dom.registerFormPresent, dom.messageDivPresent⟩
  if dom.registerFormPresent then Except.ok els
  else Except.error "TypeError: cannot read addEventListener of null"

/-- `UI.renderCapabilities` guarded by its null check: `none` models the
no-op on a null handle, `some` the content written. -/
def renderCapabilities (els : Elements) (s : Snapshot) : Option (List CapabilityCard) :=
  if els.capabilitiesList then some (renderCapabilityCards s) else none

/-- `UI.renderCapabilitySelect` guarded by its null check. -/
def renderCapabilitySelect (els : Elements) (s : Snapshot) : Option (List SelectOption) :=
  if els.capabilitySelect then some (renderCapabilitySelectOptions s) else none

/-- `UI.showMessage` guarded by its null check: `some (text, kind)` models
the message area being filled and made visible. -/
def showMessage (els : Elements) (text kind : String) : Option (String × String) :=
  if els.messageDiv then some (text, kind) else none

/-- `UI.showError` guarded by its null check: `some text` models the list
container content being replaced by the error paragraph. -/
def showError (els : Elements) (text : String) : Option String :=
  if els.capabilitiesList then some text else none

/-- Visibility of the message area at time `now`, given the times of the
`showMessage` calls made so far.  Models the source's timer discipline: each
call removes the hidden class immediately and schedules, via `setTimeout`
with no `clearTimeout`, an uncancelled hide at its call time + 5000.  The
area is visible at `now` iff some call at `t ≤ now` has every
already-expired timer expiring at or before `t` (a hide event strictly after
the latest show hides the area). -/
def messageVisibleAt (calls : List Nat) (now : Nat) : Bool :=
  calls.any (fun t => decide (t ≤ now) &&
    calls.all (fun u => !(decide (u + 5000 ≤ now)) || decide (u + 5000 ≤ t)))

/-- Modelled from the spec: the visibility the specification describes, in
which every `showMessage` call restarts the single hide timer, so the area
is visible at `now` iff some call happened at `t ≤ now < t + 5000` (with a
restarted timer this is equivalent to the most recent call being less than
5000ms old). -/
def specMessageVisibleAt (calls : List Nat) (now : Nat) : Bool :=
  calls.any (fun t => decide (t ≤ now) && decide (now < t + 5000))

end UI

/-! Association-list facts about `lookupCap`, `hasKey` and `setKey`. -/

theorem lookupCap_eq_none_of_hasKey_false (s : Snapshot) (k : String)
    (h : hasKey s k = false) : lookupCap s k = none := by
  induction s with
  | nil => rfl
  | cons p rest ih =>
      simp only [hasKey, List.any_cons, Bool.or_eq_false_iff, beq_eq_false_iff_ne] at h
      simp only [lookupCap, if_neg h.1, ih h.2]

theorem hasKey_of_lookupCap_some (s : Snapshot) (k : String) (c : Capability)
    (h : lookupCap s k = some c) : hasKey s k = true := by
  by_contra hfalse
  rw [Bool.not_eq_true] at hfalse
  rw [lookupCap_eq_none_of_hasKey_false s k hfalse] at h
  exact Option.noConfusion h

theorem lookupCap_replace_self (s : Snapshot) (k : String) (v : Capability)
    (h : hasKey s k = true) :
    lookupCap (s.map (fun p => if p.1 = k then (k, v) else p)) k = some v := by
  induction s with
  | nil => simp [hasKey] at h
  | cons p rest ih =>
      by_cases hp : p.1 = k
      · simp [lookupCap, hp]
      · have hrest : hasKey rest k = true := by
          simp only [hasKey, List.any_cons, Bool.or_eq_true, beq_iff_eq] at h
          rcases h with h | h
          · exact absurd h hp
          · exact h
        simp only [List.map_cons, if_neg hp, lookupCap, if_neg hp]
        exact ih hrest

theorem lookupCap_replace_ne (s : Snapshot) (k k' : String) (v : Capability)
    (h : k' ≠ k) :
    lookupCap (s.map (fun p => if p.1 = k then (k, v) else p)) k' = lookupCap s k' := by
  induction s with
  | nil => rfl
  | cons p rest ih =>
      by_cases hp : p.1 = k
      · have hne : ¬(k = k') := fun hkk => h hkk.symm
        simp only [List.map_cons, if_pos hp, lookupCap, if_neg hne, ih]
        rw [if_neg (by rw [hp]; exact hne)]
      · simp only [List.map_cons, if_neg hp, lookupCap, ih]

theorem lookupCap_append_single (s : Snapshot) (k k' : String) (v : Capability) :
    lookupCap (s ++ [(k, v)]) k' =
      match lookupCap s k' with
      | some c => some c
      | none => if k = k' then some v else none := by
  induction s with
  | nil => rfl
  | cons p rest ih =>
      by_cases hp : p.1 = k'
      · simp [lookupCap, hp]
      · simp only [List.cons_append, lookupCap, if_neg hp]
        exact ih

theorem lookupCap_setKey_self (s : Snapshot) (k : String) (v : Capability) :
    lookupCap (setKey s k v) k = some v := by
  unfold setKey
  by_cases h : hasKey s k = true
  · rw [if_pos h]
    exact lookupCap_replace_self s k v h
  · rw [if_neg h]
    rw [Bool.not_eq_true] at h
    rw [lookupCap_append_single]
    rw [lookupCap_eq_none_of_hasKey_false s k h]
    simp

theorem lookupCap_setKey_ne (s : Snapshot) (k k' : String) (v : Capability)
    (h : k' ≠ k) : lookupCap (setKey s k v) k' = lookupCap s k' := by
  unfold setKey
  by_cases hk : hasKey s k = true
  · rw [if_pos hk]
    exact lookupCap_replace_ne s k k' v h
  · rw [if_neg hk]
    rw [lookupCap_append_single]
    cases hl : lookupCap s k' with
    | some c => rfl
    | none => exact if_neg (fun hkk : k = k' => h hkk.symm)

theorem keys_setKey (s : Snapshot) (k : String) (v : Capability)
    (h : hasKey s k = true) :
    (setKey s k v).map Prod.fst = s.map Prod.fst := by
  unfold setKey
  rw [if_pos h, List.map_map]
  apply List.map_congr_left
  intro p _
  by_cases hp : p.1 = k
  · simp [hp]
  · simp [hp]

/-! Concrete values used to instantiate theorems with hypotheses. -/

/-- A sample capability with one registered consultant. -/
def demoCap : Capability :=
  { description := "Move on-prem workloads"
    practice_area := "Cloud"
    industry_verticals := some ["Finance"]
    capacity := some 20
    consultants := some ["b@y.com"] }

/-- A sample capability with an empty consultants list. -/
def demoCapEmpty : Capability :=
  { description := "Harden deployments"
    practice_area := "Security"
    industry_verticals := none
    capacity := none
    consultants := some [] }

/-- A sample two-entry snapshot. -/
def demoSnap : Snapshot := [("Data Migration", demoCap), ("Hardening", demoCapEmpty)]

/-- Claim C1: after a successful (HTTP ok) `registerConsultant(cap, email)`
on a snapshot containing `cap`, the call returns true, the new snapshot maps
`cap` to the old capability with `email` appended exactly once at the end of
its consultants, every other key maps to the same entry as before, and the
key order is unchanged. -/
theorem register_success_appends (st : Snapshot) (cap email msg k : String)
    (c : Capability) (l : List String)
    (hc : lookupCap st cap = some c) (hl : c.consultants = some l)
    (hk : k ≠ cap) :
    (AppState.registerConsultant st cap email (HttpResponse.ok msg)).returned = true ∧
    lookupCap (AppState.registerConsultant st cap email (HttpResponse.ok msg)).snapshot cap
      = some { c with consultants := some (l ++ [email]) } ∧
    lookupCap (AppState.registerConsultant st cap email (HttpResponse.ok msg)).snapshot k
      = lookupCap st k ∧
    (AppState.registerConsultant st cap email (HttpResponse.ok msg)).snapshot.map Prod.fst
      = st.map Prod.fst := by
  have houtcome : AppState.registerConsultant st cap email (HttpResponse.ok msg)
      = ⟨setKey st cap { c with consultants := some (l ++ [email]) },
          true, some (msg, "success"), true, false⟩ := by
    simp only [AppState.registerConsultant, AppState.registerConsultantTry, hc, hl]
  rw [houtcome]
  exact ⟨rfl, lookupCap_setKey_self st cap _, lookupCap_setKey_ne st cap k _ hk,
    keys_setKey st cap _ (hasKey_of_lookupCap_some st cap c hc)⟩

/-- Witness for C1 on `demoSnap`. -/
theorem register_success_appends_witness :
    lookupCap demoSnap "Data Migration" = some demoCap ∧
    demoCap.consultants = some ["b@y.com"] ∧
    "Hardening" ≠ "Data Migration" ∧
    ((AppState.registerConsultant demoSnap "Data Migration" "a@x.com"
        (HttpResponse.ok "Registered")).returned = true ∧
      lookupCap (AppState.registerConsultant demoSnap "Data Migration" "a@x.com"
          (HttpResponse.ok "Registered")).snapshot "Data Migration"
        = some { demoCap with consultants := some (["b@y.com"] ++ ["a@x.com"]) } ∧
      lookupCap (AppState.registerConsultant demoSnap "Data Migration" "a@x.com"
          (HttpResponse.ok "Registered")).snapshot "Hardening"
        = lookupCap demoSnap "Hardening" ∧
      (AppState.registerConsultant demoSnap "Data Migration" "a@x.com"
          (HttpResponse.ok "Registered")).snapshot.map Prod.fst
        = demoSnap.map Prod.fst) :=
  ⟨by decide, by decide, by decide,
    register_success_appends demoSnap "Data Migration" "a@x.com" "Registered" "Hardening"
      demoCap ["b@y.com"] (by decide) (by decide) (by decide)⟩

/-- Claim C2: after a successful (HTTP ok) `unregisterConsultant(cap, email)`
on a snapshot containing `cap`, the new snapshot maps `cap` to the old
capability with every occurrence of `email` removed from its consultants by
exact string equality (so `email` no longer occurs), and every other key
maps to the same entry as before. -/
theorem unregister_success_filters (st : Snapshot) (cap email msg k : String)
    (c : Capability) (l : List String)
    (hc : lookupCap st cap = some c) (hl : c.consultants = some l)
    (hk : k ≠ cap) :
    lookupCap (AppState.unregisterConsultant st cap email (HttpResponse.ok msg)).snapshot cap
      = some { c with consultants := some (l.filter (fun x => x != email)) } ∧
    email ∉ l.filter (fun x => x != email) ∧
    lookupCap (AppState.unregisterConsultant st cap email (HttpResponse.ok msg)).snapshot k
      = lookupCap st k := by
  have houtcome : AppState.unregisterConsultant st cap email (HttpResponse.ok msg)
      = ⟨setKey st cap { c with consultants := some (l.filter (fun x => x != email)) },
          some (msg, "success"), true, false⟩ := by
    simp only [AppState.unregisterConsultant, AppState.unregisterConsultantTry, hc, hl]
  rw [houtcome]
  refine ⟨lookupCap_setKey_self st cap _, ?_, lookupCap_setKey_ne st cap k _ hk⟩
  intro hmem
  rw [List.mem_filter] at hmem
  simp at hmem

/-- Witness for C2 on `demoSnap`. -/
theorem unregister_success_filters_witness :
    lookupCap demoSnap "Data Migration" = some demoCap ∧
    demoCap.consultants = some ["b@y.com"] ∧
    "Hardening" ≠ "Data Migration" ∧
    (lookupCap (AppState.unregisterConsultant demoSnap "Data Migration" "b@y.com"
          (HttpResponse.ok "Removed")).snapshot "Data Migration"
        = some { demoCap with
            consultants := some (List.filter (fun x => x != "b@y.com") ["b@y.com"]) } ∧
      "b@y.com" ∉ List.filter (fun x => x != "b@y.com") ["b@y.com"] ∧
      lookupCap (AppState.unregisterConsultant demoSnap "Data Migration" "b@y.com"
          (HttpResponse.ok "Removed")).snapshot "Hardening"
        = lookupCap demoSnap "Hardening") :=
  ⟨by decide, by decide, by decide,
    unregister_success_filters demoSnap "Data Migration" "b@y.com" "Removed" "Hardening"
      demoCap ["b@y.com"] (by decide) (by decide) (by decide)⟩

/-- Claim C3: a non-2xx HTTP response leaves the stored snapshot equal to
the snapshot before the call for both write operations, and
`registerConsultant` returns false. -/
theorem failed_write_preserves_snapshot (st : Snapshot) (cap email : String)
    (d : Option String) :
    (AppState.registerConsultant st cap email (HttpResponse.err d)).snapshot = st ∧
    (AppState.registerConsultant st cap email (HttpResponse.err d)).returned = false ∧
    (AppState.unregisterConsultant st cap email (HttpResponse.err d)).snapshot = st := by
  refine ⟨rfl, rfl, rfl⟩

/-- Claim C4, counterexample: `UI.init` is not exception-free on partial
markup — when the registration-form anchor is absent (all other anchors
present), the unconditional `addEventListener` call raises a `TypeError`. -/
theorem ui_init_throws_without_form :
    UI.init ⟨true, true, false, true⟩
      = Except.error "TypeError: cannot read addEventListener of null" := rfl

/-- Claim C4 (amended): when the registration-form anchor is present,
`UI.init` succeeds, storing a null handle for each absent anchor; and every
render/message method no-ops when its own target handle is null.  (The
original claim's "init never throws" fails when the registration form is
absent, see the counterexample.) -/
theorem ui_init_defensive (dom : UI.Dom) (els : UI.Elements) (s : Snapshot)
    (t k : String)
    (hform : dom.registerFormPresent = true)
    (hl : els.capabilitiesList = false) (hs : els.capabilitySelect = false)
    (hm : els.messageDiv = false) :
    UI.init dom = Except.ok ⟨dom.capabilitiesListPresent, dom.capabilitySelectPresent,
      dom.registerFormPresent, dom.messageDivPresent⟩ ∧
    UI.renderCapabilities els s = none ∧
    UI.renderCapabilitySelect els s = none ∧
    UI.showMessage els t k = none ∧
    UI.showError els t = none := by
  refine ⟨?_, ?_, ?_, ?_, ?_⟩
  · simp [UI.init, hform]
  · simp [UI.renderCapabilities, hl]
  · simp [UI.renderCapabilitySelect, hs]
  · simp [UI.showMessage, hm]
  · simp [UI.showError, hl]

/-- Witness for the amended C4. -/
theorem ui_init_defensive_witness :
    (UI.Dom.mk false false true false).registerFormPresent = true ∧
    (UI.Elements.mk false false true false).capabilitiesList = false ∧
    (UI.Elements.mk false false true false).capabilitySelect = false ∧
    (UI.Elements.mk false false true false).messageDiv = false ∧
    (UI.init ⟨false, false, true, false⟩ = Except.ok ⟨false, false, true, false⟩ ∧
      UI.renderCapabilities ⟨false, false, true, false⟩ demoSnap = none ∧
      UI.renderCapabilitySelect ⟨false, false, true, false⟩ demoSnap = none ∧
      UI.showMessage ⟨false, false, true, false⟩ "saved" "success" = none ∧
      UI.showError ⟨false, false, true, false⟩ "saved" = none) :=
  ⟨rfl, rfl, rfl, rfl,
    ui_init_defensive ⟨false, false, true, false⟩ ⟨false, false, true, false⟩
      demoSnap "saved" "success" rfl rfl rfl rfl⟩

/-- Claim C5, counterexample: with `showMessage` calls at times 0 and 3000,
the claim (every call restarts the hide timer, so the area stays visible
until most-recent-call + 5000) predicts the area is visible at 6000, but
under the source's uncancelled `setTimeout` semantics the timer scheduled at
time 0 hides it at 5000, so at 6000 it is hidden. -/
theorem show_message_timer_cex :
    UI.messageVisibleAt [0, 3000] 6000 = false ∧
    UI.specMessageVisibleAt [0, 3000] 6000 = true := by decide

/-- Claim C5 (amended): the message area still becomes visible immediately
on any `showMessage` call, but hide timers are never cancelled: whenever
some earlier call's timer expires after every call made up to `now`
(for example a call at `u` with a later call inside `(u, u + 5000)`),
the area is hidden at `now`, even though fewer than 5000ms may have elapsed
since the most recent call. -/
theorem show_message_timer_behavior (calls : List Nat) (t u now : Nat)
    (ht : t ∈ calls) (hu : u ∈ calls) (hexp : u + 5000 ≤ now)
    (hlate : ∀ s ∈ calls, s ≤ now → s < u + 5000) :
    UI.messageVisibleAt calls t = true ∧
    UI.messageVisibleAt calls now = false := by
  constructor
  · rw [UI.messageVisibleAt, List.any_eq_true]
    refine ⟨t, ht, ?_⟩
    rw [Bool.and_eq_true]
    refine ⟨by simp, ?_⟩
    rw [List.all_eq_true]
    intro x _
    by_cases hx : x + 5000 ≤ t
    · simp [hx]
    · simp [hx]
  · rw [Bool.eq_false_iff]
    intro hvis
    rw [UI.messageVisibleAt, List.any_eq_true] at hvis
    obtain ⟨x, hxmem, hx⟩ := hvis
    rw [Bool.and_eq_true, decide_eq_true_eq] at hx
    obtain ⟨hxle, hall⟩ := hx
    rw [List.all_eq_true] at hall
    have hxu := hall u hu
    have hxlt : x < u + 5000 := hlate x hxmem hxle
    rw [Bool.or_eq_true, Bool.not_eq_true', decide_eq_false_iff_not,
      decide_eq_true_eq] at hxu
    rcases hxu with hxu | hxu
    · exact hxu hexp
    · omega

/-- Witness for the amended C5: calls at 0 and 3000, observed at the call
time 3000 (visible) and at 6000 (already hidden by the uncancelled timer
from the call at 0). -/
theorem show_message_timer_behavior_witness :
    3000 ∈ [0, 3000] ∧ 0 ∈ [0, 3000] ∧ 0 + 5000 ≤ 6000 ∧
    (∀ s ∈ [0, 3000], s ≤ 6000 → s < 0 + 5000) ∧
    (UI.messageVisibleAt [0, 3000] 3000 = true ∧
      UI.messageVisibleAt [0, 3000] 6000 = false) :=
  ⟨by decide, by decide, by decide, by decide,
    show_message_timer_behavior [0, 3000] 3000 0 6000 (by decide) (by decide)
      (by decide) (by decide)⟩

/-- Claim C6: `renderCapabilitySelect` leaves exactly one leading placeholder
option whose value is empty, followed by one option per snapshot key in
iteration order, each carrying the capability name as both value and
label. -/
theorem render_select_options (s : Snapshot) (i : Nat) :
    (UI.renderCapabilitySelectOptions s).length = s.length + 1 ∧
    (UI.renderCapabilitySelectOptions s).head? = some UI.placeholderOption ∧
    UI.placeholderOption.value = "" ∧
    (UI.renderCapabilitySelectOptions s)[i + 1]?
      = s[i]?.map (fun p => ⟨p.1, p.1⟩) := by
  refine ⟨?_, rfl, rfl, ?_⟩
  · simp [UI.renderCapabilitySelectOptions]
  · simp [UI.renderCapabilitySelectOptions]

/-- Claim C7: a card built from a capability with a non-empty consultants
sequence renders exactly one removal control per consultant, the i-th
control carrying that capability name and the i-th email as its data
attributes; a card built from a capability whose consultants sequence is
empty or absent shows the placeholder message and renders no removal
controls. -/
theorem card_removal_controls (name name2 : String) (details details2 : Capability)
    (l : List String) (i : Nat)
    (hc : details.consultants = some l) (hne : l ≠ [])
    (h2 : details2.consultants = none ∨ details2.consultants = some []) :
    (UI.createCapabilityCard name details).consultants.removalButtons.length = l.length ∧
    (UI.createCapabilityCard name details).consultants.removalButtons[i]?
      = l[i]?.map (fun e => ⟨name, e⟩) ∧
    (UI.createCapabilityCard name2 details2).consultants
      = ConsultantsSection.placeholder "No consultants registered yet" ∧
    (UI.createCapabilityCard name2 details2).consultants.removalButtons = [] := by
  have hpos : l.length > 0 := List.length_pos.mpr hne
  have hsec : (UI.createCapabilityCard name details).consultants
      = ConsultantsSection.list (l.map (fun e => ⟨e, ⟨name, e⟩⟩)) := by
    simp [UI.createCapabilityCard, hc, hpos]
  have hsec2 : (UI.createCapabilityCard name2 details2).consultants
      = ConsultantsSection.placeholder "No consultants registered yet" := by
    rcases h2 with h2 | h2 <;> simp [UI.createCapabilityCard, h2]
  refine ⟨?_, ?_, hsec2, ?_⟩
  · rw [hsec]
    simp [ConsultantsSection.removalButtons]
  · rw [hsec]
    simp only [ConsultantsSection.removalButtons, List.map_map, List.getElem?_map]
    cases l[i]? <;> rfl
  · rw [hsec2]
    rfl

/-- Witness for C7 on `demoCap` (one consultant) and `demoCapEmpty` (empty
list). -/
theorem card_removal_controls_witness :
    demoCap.consultants = some ["b@y.com"] ∧
    ["b@y.com"] ≠ ([] : List String) ∧
    (demoCapEmpty.consultants = none ∨ demoCapEmpty.consultants = some []) ∧
    ((UI.createCapabilityCard "Data Migration" demoCap).consultants.removalButtons.length
        = (["b@y.com"] : List String).length ∧
      (UI.createCapabilityCard "Data Migration" demoCap).consultants.removalButtons[0]?
        = (["b@y.com"] : List String)[0]?.map (fun e => ⟨"Data Migration", e⟩) ∧
      (UI.createCapabilityCard "Hardening" demoCapEmpty).consultants
        = ConsultantsSection.placeholder "No consultants registered yet" ∧
      (UI.createCapabilityCard "Hardening" demoCapEmpty).consultants.removalButtons = []) :=
  ⟨by decide, by decide, Or.inr rfl,
    card_removal_controls "Data Migration" "Hardening" demoCap demoCapEmpty
      ["b@y.com"] 0 (by decide) (by decide) (Or.inr rfl)⟩

/-- Claim C8: a failed `fetchCapabilities` raises inside the try block but
the catch handler makes the call total (nothing reaches the caller); it
logs, shows the generic error in place of the capability list, and leaves
the stored snapshot unchanged — in particular `init` on a failed initial
fetch leaves the snapshot at the initial empty mapping. -/
theorem fetch_failure_handled (st : Snapshot) :
    AppState.fetchCapabilitiesTry st FetchResponse.fail
      = Except.error "fetch rejected or response body was not JSON" ∧
    AppState.fetchCapabilities st FetchResponse.fail
      = ⟨st, false, true, some "Failed to load capabilities. Please try again later."⟩ ∧
    AppState.init FetchResponse.fail
      = ⟨[], false, true, some "Failed to load capabilities. Please try again later."⟩ :=
  ⟨rfl, rfl, rfl⟩

/-- Claim C9: when the HTTP response is successful but the capability is
absent from the client snapshot, the try body of `registerConsultant`
raises a `TypeError` (reading `.consultants` of `undefined`), and the catch
handler turns this into: snapshot unchanged, return value false, generic
failure message shown, error logged — no exception reaches the caller. -/
theorem register_absent_capability_caught (st : Snapshot) (cap email msg : String)
    (h : lookupCap st cap = none) :
    AppState.registerConsultantTry st cap email (HttpResponse.ok msg)
      = Except.error "TypeError: cannot read consultants of undefined" ∧
    AppState.registerConsultant st cap email (HttpResponse.ok msg)
      = ⟨st, false, some ("Failed to register. Please try again.", "error"), false, true⟩ := by
  have htry : AppState.registerConsultantTry st cap email (HttpResponse.ok msg)
      = Except.error "TypeError: cannot read consultants of undefined" := by
    simp only [AppState.registerConsultantTry, h]
  refine ⟨htry, ?_⟩
  simp only [AppState.registerConsultant, htry]

/-- Witness for C9: registering against a capability name missing from
`demoSnap`. -/
theorem register_absent_capability_caught_witness :
    lookupCap demoSnap "Nonexistent" = none ∧
    (AppState.registerConsultantTry demoSnap "Nonexistent" "a@x.com"
        (HttpResponse.ok "Registered")
      = Except.error "TypeError: cannot read consultants of undefined" ∧
    AppState.registerConsultant demoSnap "Nonexistent" "a@x.com"
        (HttpResponse.ok "Registered")
      = ⟨demoSnap, false, some ("Failed to register. Please try again.", "error"),
          false, true⟩) :=
  ⟨by decide,
    register_absent_capability_caught demoSnap "Nonexistent" "a@x.com" "Registered"
      (by decide)⟩

/-- Claim C10: when `email` is not already among `cap`'s consultants, a
successful `registerConsultant(cap, email)` followed by a successful
`unregisterConsultant(cap, email)` restores `cap`'s entry — in particular
its consultants sequence — to the original value. -/
theorem register_unregister_roundtrip (st : Snapshot) (cap email m1 m2 : String)
    (c : Capability) (l : List String)
    (hc : lookupCap st cap = some c) (hl : c.consultants = some l)
    (hmem : email ∉ l) :
    lookupCap (AppState.unregisterConsultant
        (AppState.registerConsultant st cap email (HttpResponse.ok m1)).snapshot
        cap email (HttpResponse.ok m2)).snapshot cap = some c := by
  have hpost : (AppState.registerConsultant st cap email (HttpResponse.ok m1)).snapshot
      = setKey st cap { c with consultants := some (l ++ [email]) } := by
    simp only [AppState.registerConsultant, AppState.registerConsultantTry, hc, hl]
  have hlook1 : lookupCap (setKey st cap { c with consultants := some (l ++ [email]) }) cap
      = some { c with consultants := some (l ++ [email]) } :=
    lookupCap_setKey_self st cap _
  have hfilter : (l ++ [email]).filter (fun x => x != email) = l := by
    rw [List.filter_append]
    have h1 : l.filter (fun x => x != email) = l := by
      rw [List.filter_eq_self]
      intro a ha
      rw [bne_iff_ne]
      intro he
      exact hmem (he ▸ ha)
    rw [h1]
    simp
  have hceq : { c with consultants := some l } = c := by
    obtain ⟨d, pa, iv, cp, cs⟩ := c
    simp only at hl
    subst hl
    rfl
  rw [hpost]
  have hpost2 : (AppState.unregisterConsultant
      (setKey st cap { c with consultants := some (l ++ [email]) }) cap email
      (HttpResponse.ok m2)).snapshot
      = setKey (setKey st cap { c with consultants := some (l ++ [email]) }) cap
          { c with consultants := some l } := by
    simp only [AppState.unregisterConsultant, AppState.unregisterConsultantTry,
      hlook1, hfilter]
  rw [hpost2, hceq]
  exact lookupCap_setKey_self _ cap c

/-- Witness for C10 on `demoSnap`: registering then unregistering a fresh
email restores the original entry. -/
theorem register_unregister_roundtrip_witness :
    lookupCap demoSnap "Data Migration" = some demoCap ∧
    demoCap.consultants = some ["b@y.com"] ∧
    "a@x.com" ∉ (["b@y.com"] : List String) ∧
    lookupCap (AppState.unregisterConsultant
        (AppState.registerConsultant demoSnap "Data Migration" "a@x.com"
          (HttpResponse.ok "Registered")).snapshot
        "Data Migration" "a@x.com" (HttpResponse.ok "Removed")).snapshot "Data Migration"
      = some demoCap :=
  ⟨by decide, by decide, by decide,
    register_unregister_roundtrip demoSnap "Data Migration" "a@x.com" "Registered"
      "Removed" demoCap ["b@y.com"] (by decide) (by decide) (by decide)⟩

end ConsultantApp
